import Mathlib

/-!
Verification of the Data Quality Profiler engine
(`data-quality-profiler/data_quality_profiler.py`).

Shallow embedding conventions:
* A pandas cell is `Cell`: `null` models `NaN`/`None`, `num` a numeric value,
  `str` a Python string.  Machine floats are modelled by exact rationals `ℚ`;
  float representation error is not modelled.  The one float peculiarity the
  code relies on is propagation of `NaN` through arithmetic: a quantity that
  is `NaN` in the source is modelled as `Option.none`.
* The Python builtin `round(x, n)` (round-half-to-even on the scaled value) is
  `pyRound x n`.
* Fallible source paths (`ZeroDivisionError`) are modelled with `Option`:
  `none` means the Python code raises.
* `pd.to_datetime` (used by `validate_date`) is an external library routine;
  it is modelled as an arbitrary oracle `dateOk : Cell → Bool` that every
  theorem quantifies over.
-/

/-- A single cell of a loaded column: `null` models `NaN`/`None`. -/
inductive Cell where
  | null : Cell
  | num : ℚ → Cell
  | str : String → Cell
deriving DecidableEq

/-- One column of the in-memory table: its name, the rendered dtype string
(`str(series.dtype)`), the two dtype predicates the source queries
(`pd.api.types.is_numeric_dtype(series)` and the object-dtype test),
and the cells.  In pandas a numeric-dtype column holds only `null`/`num`
cells and the two dtype flags are mutually exclusive; the model does not
depend on either fact except where stated. -/
structure Column where
  name : String
  dtypeName : String
  is_numeric_dtype : Bool
  is_object_dtype : Bool
  cells : List Cell
deriving DecidableEq

/-- The loaded DataFrame: row count (`len(self.df)`) and its columns. -/
structure Table where
  nrows : ℕ
  cols : List Column
deriving DecidableEq

/-- Predicate that is true exactly on the `null` cell (models `pd.isna`). -/
def isNull : Cell → Bool
  | Cell.null => true
  | _ => false

/-- The non-null cells of a column, in order (models `series.dropna()`). -/
def nonNullCells (c : Column) : List Cell :=
  c.cells.filter fun x => ! isNull x

/-- The numeric values among the non-null cells of a column, in order. -/
def numericVals (c : Column) : List ℚ :=
  c.cells.filterMap fun x =>
    match x with
    | Cell.num q => some q
    | _ => none

/-- Round-half-to-even to an integer, as the Python builtin `round` does. -/
def roundHalfEven (q : ℚ) : ℤ :=
  if q - (⌊q⌋ : ℚ) < 1/2 then ⌊q⌋
  else if 1/2 < q - (⌊q⌋ : ℚ) then ⌊q⌋ + 1
  else if ⌊q⌋ % 2 = 0 then ⌊q⌋ else ⌊q⌋ + 1

/-- The Python `round(q, n)`: round-half-to-even at `n` decimal places. -/
def pyRound (q : ℚ) (n : ℕ) : ℚ :=
  (roundHalfEven (q * 10 ^ n) : ℚ) / 10 ^ n

/-- Insert a value into an ascending-sorted list, keeping it sorted. -/
def insertSorted (x : ℚ) : List ℚ → List ℚ
  | [] => [x]
  | y :: ys => if x ≤ y then x :: y :: ys else y :: insertSorted x ys

/-- Ascending insertion sort (the sort underlying `series.quantile`). -/
def sortQ (xs : List ℚ) : List ℚ :=
  xs.foldr insertSorted []

/-- Linear interpolation at fractional position `h` into sorted list `s`
(with default `d` for the degenerate out-of-range reads), exactly as
the numpy `linear` quantile interpolation does:
`s[⌊h⌋] + (h − ⌊h⌋)·(s[⌊h⌋+1] − s[⌊h⌋])`. -/
def interpAt (s : List ℚ) (d : ℚ) (h : ℚ) : ℚ :=
  s.getD (⌊h⌋).toNat d
    + (h - ((⌊h⌋ : ℤ) : ℚ))
      * (s.getD ((⌊h⌋).toNat + 1) (s.getD (⌊h⌋).toNat d) - s.getD (⌊h⌋).toNat d)

/-- Model of `series.quantile(p)` with the default linear interpolation
over the sorted non-null values; `none` models the `NaN` returned on no
data. -/
def quantile (xs : List ℚ) (p : ℚ) : Option ℚ :=
  match sortQ xs with
  | [] => none
  | y :: ys => some (interpAt (y :: ys) y (p * (((y :: ys).length : ℚ) - 1)))

/-- The positional indices kept by
`series[(series < lower_bound) | (series > upper_bound)]` for bounds
`lb`, `ub`: a null cell compares `False` on both sides, so only numeric
cells strictly outside the bounds are kept. -/
def outlierIndices (c : Column) (lb ub : ℚ) : List ℕ :=
  (List.range c.cells.length).filter fun i =>
    match c.cells.getD i Cell.null with
    | Cell.num q => decide (q < lb) || decide (ub < q)
    | _ => false

/-- Source method `DataQualityProfiler.detect_outliers`: IQR rule on a
numeric column;
non-numeric dtypes yield `[]`, and with no numeric data the quantiles are
`NaN` so every comparison is `False` and the result is `[]`. -/
def detect_outliers (c : Column) : List ℕ :=
  if c.is_numeric_dtype then
    match quantile (numericVals c) (1/4), quantile (numericVals c) (3/4) with
    | some q1, some q3 =>
        outlierIndices c (q1 - (3/2) * (q3 - q1)) (q3 + (3/2) * (q3 - q1))
    | _, _ => []
  else []

/-- Character class of the regex fragment `[a-zA-Z0-9._%+-]` (local part). -/
def isLocalChar (ch : Char) : Bool :=
  ch.isAlpha || ch.isDigit || ch = '.' || ch = '_' || ch = '%' || ch = '+' || ch = '-'

/-- Character class of the regex fragment `[a-zA-Z0-9.-]` (domain part). -/
def isDomainChar (ch : Char) : Bool :=
  ch.isAlpha || ch.isDigit || ch = '.' || ch = '-'

/-- Matches `[a-zA-Z0-9.-]+\.[a-zA-Z]\x7b2,\x7d` against the part after `@`:
some split `d ++ "." ++ t` with `d` nonempty over the domain class and `t`
at least two ASCII letters.  Trying every split point is exactly the
nondeterminism of the regex. -/
def domainMatch (cs : List Char) : Bool :=
  (List.range cs.length).any fun i =>
    decide (cs.getD i ' ' = '.') && decide (0 < i)
      && (cs.take i).all isDomainChar
      && (let t := cs.drop (i + 1)
          t.all Char.isAlpha && decide (2 ≤ t.length))

/-- Full match of `^[a-zA-Z0-9._%+-]+@[a-zA-Z0-9.-]+\.[a-zA-Z]\x7b2,\x7d$`.
Neither class contains `@`, so the matched `@` is the first one; `$` also
matches just before one trailing newline, which is stripped first. -/
def emailMatch (cs0 : List Char) : Bool :=
  let cs := match cs0.getLast? with
    | some ch => if ch = '\n' then cs0.dropLast else cs0
    | none => cs0
  match cs.dropWhile (fun ch => ! decide (ch = '@')) with
  | _ :: r =>
      let l := cs.takeWhile fun ch => ! decide (ch = '@')
      ! l.isEmpty && l.all isLocalChar && domainMatch r
  | [] => false

/-- Source method `DataQualityProfiler.validate_email`: null is vacuously
valid, strings
are matched against the regex.  A numeric cell is rendered by `str(...)`
first; no decimal rendering of a number contains `@`, so it never
matches. -/
def validate_email : Cell → Bool
  | Cell.null => true
  | Cell.str s => emailMatch s.toList
  | Cell.num _ => false

/-- Source method `DataQualityProfiler.validate_date`: null is vacuously
valid; otherwise
defer to the `pd.to_datetime` oracle. -/
def validate_date (dateOk : Cell → Bool) (v : Cell) : Bool :=
  if isNull v then true else dateOk v

/-- The bounded sniffing sample, `series.dropna().head(100)`. -/
def sampleOf (c : Column) : List Cell :=
  (nonNullCells c).take 100

/-- Number of sample values accepted by `validate_email`. -/
def emailCount (c : Column) : ℕ :=
  ((sampleOf c).filter validate_email).length

/-- Number of sample values accepted by `validate_date`. -/
def dateCount (dateOk : Cell → Bool) (c : Column) : ℕ :=
  ((sampleOf c).filter (validate_date dateOk)).length

/-- The per-column analysis dictionary built by
`DataQualityProfiler.analyze_column`.  A key the Python dict may lack
(numeric summary, outlier stats, the two sniffing tags) is an `Option`
field / a `Bool` defaulting to `false`.  `null_pct : Option ℚ` is `none`
when the source value is the float `NaN` (0-row column).  `std` is `none`
exactly when the source stores `None`; when defined the source stores the
2-decimal rounding of the square root of the value kept here (the sample
variance) — the root is irrational in general and no claim depends on the
magnitude of `std`, only on its definedness. -/
structure ColumnAnalysis where
  name : String
  dtype : String
  total : ℕ
  null_count : ℕ
  null_pct : Option ℚ
  unique_count : ℕ
  duplicate_count : ℤ
  is_numeric : Bool
  min : Option ℚ
  max : Option ℚ
  mean : Option ℚ
  median : Option ℚ
  std : Option ℚ
  outliers_count : Option ℕ
  outliers_pct : Option ℚ
  likely_email : Bool
  likely_date : Bool
  quality_score : ℚ
deriving DecidableEq

/-- Sample variance of the non-null values (`ddof = 1`); `series.std()` is
its square root.  The source value at `n = 1` is the float `NaN`; it is
frozen to `0` here, a difference no claim touches. -/
def sampleVariance (xs : List ℚ) : ℚ :=
  if xs.length ≤ 1 then 0
  else
    (xs.map fun x => (x - xs.sum / (xs.length : ℚ)) ^ 2).sum / ((xs.length : ℚ) - 1)

/-- The analysis dictionary of `analyze_column` up to (excluding) the
quality-score entry, translated key by key.  The numeric branch divides
`outliers_count` by `total`; `analyze_column` rules out the
`total = 0 ∧ numeric` case (a `ZeroDivisionError` in the source) before
using this, so that division is guarded there. -/
def analyzeCore (dateOk : Cell → Bool) (c : Column) : ColumnAnalysis :=
  { name := c.name
    dtype := c.dtypeName
    total := c.cells.length
    null_count := (c.cells.filter isNull).length
    null_pct :=
      if c.cells.length = 0 then none
      else some (pyRound (((c.cells.filter isNull).length : ℚ) / (c.cells.length : ℚ) * 100) 2)
    unique_count := (nonNullCells c).dedup.length
    duplicate_count := (c.cells.length : ℤ) - ((nonNullCells c).dedup.length : ℤ)
    is_numeric := c.is_numeric_dtype
    min := if c.is_numeric_dtype then (numericVals c).min? else none
    max := if c.is_numeric_dtype then (numericVals c).max? else none
    mean :=
      if c.is_numeric_dtype then
        match numericVals c with
        | [] => none
        | v :: vs => some (pyRound ((v :: vs).sum / (((v :: vs).length : ℕ) : ℚ)) 2)
      else none
    median :=
      if c.is_numeric_dtype then (quantile (numericVals c) (1/2)).map (fun m => pyRound m 2)
      else none
    std :=
      if c.is_numeric_dtype then
        match numericVals c with
        | [] => none
        | v :: vs => some (sampleVariance (v :: vs))
      else none
    outliers_count := if c.is_numeric_dtype then some (detect_outliers c).length else none
    outliers_pct :=
      if c.is_numeric_dtype then
        some (pyRound (((detect_outliers c).length : ℚ) / (c.cells.length : ℚ) * 100) 2)
      else none
    likely_email :=
      c.is_object_dtype
        && decide ((((sampleOf c).length : ℚ) * (1/2)) < (emailCount c : ℚ))
    likely_date :=
      c.is_object_dtype
        && decide ((((sampleOf c).length : ℚ) * (1/2)) < (dateCount dateOk c : ℚ))
    quality_score := 0 }

/-- The quality-score arithmetic of `analyze_column` before the final
`max(0, round(·, 1))`: start at 100, subtract half the null percentage,
then the flat duplicate and outlier penalties.  `none` models the `NaN`
that a `NaN` `null_pct` propagates through every subtraction. -/
def rawScore (a : ColumnAnalysis) : Option ℚ :=
  a.null_pct.map fun p =>
    let s1 := 100 - p * (1/2)
    let s2 := if ((a.total : ℚ) * (1/2)) < (a.duplicate_count : ℚ) then s1 - 20 else s1
    if a.is_numeric && decide ((10 : ℚ) < a.outliers_pct.getD 0) then s2 - 10 else s2

/-- Final clamp `max(0, round(quality_score, 1))`.  In Python, `max(0, nan)` compares
`nan > 0` (which is `False`) and keeps `0`, so the `NaN` branch yields 0. -/
def scoreOf (a : ColumnAnalysis) : ℚ :=
  match rawScore a with
  | none => 0
  | some q => max 0 (pyRound q 1)

/-- The finished analysis dict: the core dict with its score filled in
(`analysis["quality_score"] = max(0, round(quality_score, 1))`). -/
def analysisOf (dateOk : Cell → Bool) (c : Column) : ColumnAnalysis :=
  { analyzeCore dateOk c with quality_score := scoreOf (analyzeCore dateOk c) }

/-- Source method `DataQualityProfiler.analyze_column`.  `none` models the
`ZeroDivisionError` raised computing `outliers_pct` for a 0-row numeric
column; every other column yields the analysis dict with its score. -/
def analyze_column (dateOk : Cell → Bool) (c : Column) : Option ColumnAnalysis :=
  if c.is_numeric_dtype && c.cells.isEmpty then none
  else some (analysisOf dateOk c)

/-- The issue kinds of `generate_report`. -/
inductive IssueKind where
  | high_null_percentage : IssueKind
  | high_duplicates : IssueKind
  | high_outliers : IssueKind
deriving DecidableEq

/-- Issue severities. -/
inductive Severity where
  | warning : Severity
  | info : Severity
deriving DecidableEq

/-- One detected issue.  The `message` string of the source interpolates
`payload` (the triggering statistic) after the column name; the numeric
payload is kept instead of modelling Python float formatting. -/
structure Issue where
  kind : IssueKind
  column : String
  severity : Severity
  payload : ℚ
deriving DecidableEq

/-- Condition `col_analysis["null_pct"] > 20` — `False` when `null_pct`
is `NaN`. -/
def nullCond (a : ColumnAnalysis) : Bool :=
  match a.null_pct with
  | some p => decide ((20 : ℚ) < p)
  | none => false

/-- Condition `col_analysis["duplicate_count"] > col_analysis["total"] * 0.5`. -/
def dupCond (a : ColumnAnalysis) : Bool :=
  decide (((a.total : ℚ) * (1/2)) < (a.duplicate_count : ℚ))

/-- Condition `col_analysis.get("outliers_pct", 0) > 15`. -/
def outCond (a : ColumnAnalysis) : Bool :=
  decide ((15 : ℚ) < a.outliers_pct.getD 0)

/-- The `high_null_percentage` issue for one column. -/
def nullIssue (a : ColumnAnalysis) : Issue :=
  { kind := IssueKind.high_null_percentage, column := a.name,
    severity := Severity.warning, payload := a.null_pct.getD 0 }

/-- The `high_duplicates` issue for one column. -/
def dupIssue (a : ColumnAnalysis) : Issue :=
  { kind := IssueKind.high_duplicates, column := a.name,
    severity := Severity.warning, payload := (a.duplicate_count : ℚ) }

/-- The `high_outliers` issue for one column. -/
def outIssue (a : ColumnAnalysis) : Issue :=
  { kind := IssueKind.high_outliers, column := a.name,
    severity := Severity.info, payload := a.outliers_pct.getD 0 }

/-- The issue-detection loop body of `generate_report` for one column:
null rule, then duplicate rule, then outlier rule. -/
def issuesFor (a : ColumnAnalysis) : List Issue :=
  (if nullCond a then [ nullIssue a] else [])
  ++ (if dupCond a then [ dupIssue a] else [])
  ++ (if outCond a then [ outIssue a] else [])

/-- The quality report dictionary (summary sub-dict flattened into the
record; `generated_at` is the `datetime.now()` string, an input here). -/
structure Report where
  file : String
  generated_at : String
  total_rows : ℕ
  total_columns : ℕ
  overall_quality_score : ℚ
  columns : List ColumnAnalysis
  issues : List Issue
  columns_with_nulls : ℕ
  columns_with_duplicates : ℕ
  numeric_columns : ℕ
  total_issues : ℕ
deriving DecidableEq

/-- The comprehension `[self.analyze_column(col) for col in self.df.columns]`: the whole
comprehension raises (is `none`) as soon as one column raises. -/
def analyzeAll (dateOk : Cell → Bool) : List Column → Option (List ColumnAnalysis)
  | [] => some []
  | c :: cs =>
    match analyze_column dateOk c, analyzeAll dateOk cs with
    | some a, some as => some (a :: as)
    | _, _ => none

/-- Source method `DataQualityProfiler.generate_report`, with the file name and the
clock reading as explicit inputs.  `none` models an exception: either a
column analysis raised, or the table has no columns and
`sum(...) / len(column_analyses)` raises `ZeroDivisionError` (the source
has no guard for an empty column list). -/
def generate_report (dateOk : Cell → Bool) (fileName : String) (t : Table)
    (now : String) : Option Report :=
  match analyzeAll dateOk t.cols with
  | none => none
  | some [] => none
  | some (a :: as) =>
      some { file := fileName
             generated_at := now
             total_rows := t.nrows
             total_columns := t.cols.length
             overall_quality_score :=
               pyRound (((a :: as).map fun x => x.quality_score).sum / (((a :: as).length : ℕ) : ℚ)) 1
             columns := a :: as
             issues := (a :: as).flatMap issuesFor
             columns_with_nulls := ((a :: as).filter fun x => decide (0 < x.null_count)).length
             columns_with_duplicates := ((a :: as).filter fun x => decide ((0 : ℤ) < x.duplicate_count)).length
             numeric_columns := ((a :: as).filter fun x => x.is_numeric).length
             total_issues := ((a :: as).flatMap issuesFor).length }

/-- Erase the clock-dependent field, for stating determinism. -/
def stripTime : Option Report → Option Report :=
  Option.map fun r => { r with generated_at := "" }


/-- Oracle for `pd.to_datetime` that accepts nothing (any oracle works for the
claims that use a concrete one). -/
def noDate : Cell → Bool := fun _ => false

/-- The outlier test vector `[1,2,3,4,5,6,7,100]` from the spec. -/
def colOutlier : Column :=
  { name := "v", dtypeName := "int64", is_numeric_dtype := true,
    is_object_dtype := false,
    cells := [Cell.num 1, Cell.num 2, Cell.num 3, Cell.num 4, Cell.num 5,
              Cell.num 6, Cell.num 7, Cell.num 100] }

example : quantile (numericVals colOutlier) (1/4) = some (11/4) := by
  with_unfolding_all rfl
example : quantile (numericVals colOutlier) (3/4) = some (25/4) := by
  with_unfolding_all rfl
example : detect_outliers colOutlier = [7] := by with_unfolding_all rfl

/-- Two distinct values (fewer than four), with an extreme one. -/
def colFewDistinct : Column :=
  { name := "v", dtypeName := "int64", is_numeric_dtype := true,
    is_object_dtype := false,
    cells := [Cell.num 1, Cell.num 1, Cell.num 1, Cell.num 100] }

example : detect_outliers colFewDistinct = [3] := by with_unfolding_all rfl

/-- All-null numeric column of length 2. -/
def colAllNull : Column :=
  { name := "v", dtypeName := "float64", is_numeric_dtype := true,
    is_object_dtype := false, cells := [Cell.null, Cell.null] }

example : (analyze_column noDate colAllNull).map (fun a => a.quality_score)
    = some 30 := by with_unfolding_all rfl

/-! ## Arithmetic facts about the Python rounding -/

theorem roundHalfEven_le (q : ℚ) (B : ℤ) (h : q ≤ (B : ℚ)) :
    roundHalfEven q ≤ B := by
  have hf : ⌊q⌋ ≤ B := by
    have := Int.floor_le_floor h
    rwa [Int.floor_intCast] at this
  have hstep : (⌊q⌋ : ℚ) < q → ⌊q⌋ + 1 ≤ B := by
    intro hlt
    have h1 : (⌊q⌋ : ℚ) < (B : ℚ) := lt_of_lt_of_le hlt h
    have h2 : ⌊q⌋ < B := by exact_mod_cast h1
    omega
  unfold roundHalfEven
  split_ifs with h1 h2 h3
  · exact hf
  · exact hstep (by linarith)
  · exact hf
  · push_neg at h1
    exact hstep (by linarith)

theorem roundHalfEven_nonneg (q : ℚ) (h : 0 ≤ q) : 0 ≤ roundHalfEven q := by
  have hf : 0 ≤ ⌊q⌋ := Int.floor_nonneg.mpr h
  unfold roundHalfEven
  split_ifs <;> omega

theorem pyRound_le (q : ℚ) (n : ℕ) (B : ℤ) (h : q ≤ (B : ℚ)) :
    pyRound q n ≤ (B : ℚ) := by
  unfold pyRound
  have h10 : (0 : ℚ) < 10 ^ n := by positivity
  rw [div_le_iff₀ h10]
  have hq : q * 10 ^ n ≤ ((B * 10 ^ n : ℤ) : ℚ) := by
    push_cast
    exact mul_le_mul_of_nonneg_right h (le_of_lt h10)
  have hr := roundHalfEven_le _ _ hq
  calc (roundHalfEven (q * 10 ^ n) : ℚ) ≤ ((B * 10 ^ n : ℤ) : ℚ) := by exact_mod_cast hr
    _ = (B : ℚ) * 10 ^ n := by push_cast; ring

theorem pyRound_nonneg (q : ℚ) (n : ℕ) (h : 0 ≤ q) : 0 ≤ pyRound q n := by
  unfold pyRound
  have h10 : (0 : ℚ) < 10 ^ n := by positivity
  apply div_nonneg _ (le_of_lt h10)
  exact_mod_cast roundHalfEven_nonneg _ (by positivity)

/-! ## C4: the outlier test vector -/

/-- C4: on the numeric column `[1,2,3,4,5,6,7,100]` the detector computes
Q1 = 2.75, Q3 = 6.25, IQR = 3.5, bounds `[-2.5, 11.5]`, and flags exactly
the single position 7, whose value is 100. -/
theorem outlier_vector_q1_q3_bounds :
    quantile (numericVals colOutlier) (1/4) = some (11/4)
    ∧ quantile (numericVals colOutlier) (3/4) = some (25/4)
    ∧ (25/4 : ℚ) - 11/4 = 7/2
    ∧ (11/4 : ℚ) - (3/2) * (25/4 - 11/4) = -(5/2)
    ∧ (25/4 : ℚ) + (3/2) * (25/4 - 11/4) = 23/2
    ∧ detect_outliers colOutlier = [7]
    ∧ colOutlier.cells.getD 7 Cell.null = Cell.num 100 := by
  with_unfolding_all decide

/-! ## C2: report generation on a table with no columns -/

/-- C2 (code bug): on a table with zero columns `generate_report` does not
return a report at all: `sum(...) / len(column_analyses)` divides by zero
and the run raises, modelled as `none` — contradicting the claimed
guard (`overall_score = 0`, empty issues, zero counters). -/
theorem generate_report_zero_columns (dateOk : Cell → Bool)
    (fileName now : String) :
    generate_report dateOk fileName { nrows := 0, cols := [] } now = none := rfl

/-! ## C9: determinism of the engine -/

/-- A one-column table used to exhibit clock dependence of the report. -/
def tblOne : Table :=
  { nrows := 1,
    cols := [{ name := "x", dtypeName := "int64", is_numeric_dtype := true,
               is_object_dtype := false, cells := [Cell.num 1] }] }

/-- C9 (counterexample): two runs of the engine on the same table are not
byte-identical, because `generated_at` records `datetime.now()`: with two
different clock readings the two reports differ. -/
theorem report_differs_across_clock :
    generate_report noDate ("data.csv") tblOne ("2024-01-01 10:00:00")
      ≠ generate_report noDate ("data.csv") tblOne ("2024-01-01 10:00:01") := by
  with_unfolding_all decide

/-- C9 (amended): the engine is deterministic apart from the timestamp:
for any fixed table, file name and date oracle, the report is the same
function of the clock reading in every field except `generated_at`. -/
theorem report_deterministic_modulo_timestamp (dateOk : Cell → Bool)
    (fileName : String) (t : Table) (now1 now2 : String) :
    stripTime (generate_report dateOk fileName t now1)
      = stripTime (generate_report dateOk fileName t now2) := by
  unfold generate_report
  cases analyzeAll dateOk t.cols with
  | none => rfl
  | some as =>
    cases as with
    | nil => rfl
    | cons a as => rfl

/-! ## C1: the quality score is clamped, rounded, and in range -/

theorem analyze_column_eq_analysisOf (dateOk : Cell → Bool) (c : Column)
    (a : ColumnAnalysis) (ha : analyze_column dateOk c = some a) :
    a = analysisOf dateOk c := by
  unfold analyze_column at ha
  split at ha
  · exact absurd ha (by simp)
  · exact (Option.some.inj ha).symm

theorem analysisOf_null_pct_nonneg (dateOk : Cell → Bool) (c : Column)
    (p : ℚ) (hp : (analysisOf dateOk c).null_pct = some p) : 0 ≤ p := by
  have hp' : (if c.cells.length = 0 then none
      else some (pyRound (((c.cells.filter isNull).length : ℚ)
        / (c.cells.length : ℚ) * 100) 2)) = some p := hp
  split at hp'
  · exact absurd hp' (by simp)
  · have := Option.some.inj hp'
    subst this
    exact pyRound_nonneg _ _ (by positivity)

theorem rawScore_le_100 (a : ColumnAnalysis)
    (hp : ∀ p, a.null_pct = some p → 0 ≤ p)
    (s : ℚ) (hs : rawScore a = some s) : s ≤ 100 := by
  unfold rawScore at hs
  cases hnp : a.null_pct with
  | none => rw [hnp] at hs; exact absurd hs (by simp)
  | some p =>
    rw [hnp] at hs
    simp only [Option.map_some'] at hs
    have hbody := Option.some.inj hs
    have h0 : 0 ≤ p := hp p hnp
    rw [← hbody]
    split_ifs <;> linarith

/-- C1: every analysis produced by `analyze_column` carries a quality
score in `[0, 100]` that is a whole number of tenths and equals the
clamp to `[0, 100]` of the 1-decimal rounding of the raw penalty formula
(where a `NaN` formula value yields 0). -/
theorem quality_score_in_range (dateOk : Cell → Bool) (c : Column)
    (a : ColumnAnalysis) (ha : analyze_column dateOk c = some a) :
    0 ≤ a.quality_score ∧ a.quality_score ≤ 100
    ∧ (∃ k : ℤ, a.quality_score = (k : ℚ) / 10)
    ∧ a.quality_score
        = (rawScore a).elim 0 (fun q => min 100 (max 0 (pyRound q 1))) := by
  have hEq := analyze_column_eq_analysisOf dateOk c a ha
  subst hEq
  have hqs : (analysisOf dateOk c).quality_score
      = scoreOf (analyzeCore dateOk c) := rfl
  have hraw : rawScore (analysisOf dateOk c) = rawScore (analyzeCore dateOk c) := rfl
  have hp : ∀ p, (analyzeCore dateOk c).null_pct = some p → 0 ≤ p :=
    fun p h => analysisOf_null_pct_nonneg dateOk c p h
  rw [hqs, hraw]
  cases hrs : rawScore (analyzeCore dateOk c) with
  | none =>
    have h0 : scoreOf (analyzeCore dateOk c) = 0 := by
      unfold scoreOf
      rw [hrs]
    rw [h0]
    refine ⟨le_refl 0, by norm_num, ⟨0, by norm_num⟩, rfl⟩
  | some s =>
    have hs100 : s ≤ 100 := rawScore_le_100 _ hp s hrs
    have hM : scoreOf (analyzeCore dateOk c) = max 0 (pyRound s 1) := by
      unfold scoreOf
      rw [hrs]
    have hpr : pyRound s 1 ≤ 100 := by
      have := pyRound_le s 1 100 (by exact_mod_cast hs100)
      exact_mod_cast this
    have hmax : max 0 (pyRound s 1) ≤ 100 := max_le (by norm_num) hpr
    refine ⟨?_, ?_, ?_, ?_⟩
    · rw [hM]; exact le_max_left 0 _
    · rw [hM]; exact hmax
    · rw [hM]
      rcases le_or_lt (pyRound s 1) 0 with h | h
      · exact ⟨0, by rw [max_eq_left h]; norm_num⟩
      · refine ⟨roundHalfEven (s * 10), ?_⟩
        rw [max_eq_right (le_of_lt h)]
        unfold pyRound
        norm_num
    · rw [hM]
      have : (some s).elim 0 (fun q => min 100 (max 0 (pyRound q 1)))
          = min 100 (max 0 (pyRound s 1)) := rfl
      rw [this, min_eq_right hmax]

/-- Small numeric column for the C1 witness. -/
def colWitness : Column :=
  { name := "w", dtypeName := "float64", is_numeric_dtype := true,
    is_object_dtype := false,
    cells := [Cell.num 1, Cell.num 2, Cell.null, Cell.num 2] }

/-- C1 witness: the bound theorem applied to a concrete column. -/
theorem quality_score_in_range_witness :
    analyze_column noDate colWitness = some (analysisOf noDate colWitness)
    ∧ (0 ≤ (analysisOf noDate colWitness).quality_score
       ∧ (analysisOf noDate colWitness).quality_score ≤ 100
       ∧ (∃ k : ℤ, (analysisOf noDate colWitness).quality_score = (k : ℚ) / 10)
       ∧ (analysisOf noDate colWitness).quality_score
           = (rawScore (analysisOf noDate colWitness)).elim 0
               (fun q => min 100 (max 0 (pyRound q 1)))) :=
  ⟨by with_unfolding_all rfl,
   quality_score_in_range noDate colWitness _ (by with_unfolding_all rfl)⟩

/-! ## C3: columns with zero non-null values -/

theorem numericVals_eq_nil (c : Column) (hnull : ∀ x ∈ c.cells, x = Cell.null) :
    numericVals c = [] := by
  unfold numericVals
  rw [List.filterMap_eq_nil_iff]
  intro x hx
  rw [hnull x hx]

theorem nonNullCells_eq_nil (c : Column) (hnull : ∀ x ∈ c.cells, x = Cell.null) :
    nonNullCells c = [] := by
  unfold nonNullCells
  rw [List.filter_eq_nil_iff]
  intro x hx
  rw [hnull x hx]
  simp [isNull]

theorem detect_outliers_of_no_vals (c : Column) (h : numericVals c = []) :
    detect_outliers c = [] := by
  unfold detect_outliers
  rw [h]
  split_ifs <;> rfl

theorem filter_isNull_eq_self (c : Column) (hnull : ∀ x ∈ c.cells, x = Cell.null) :
    c.cells.filter isNull = c.cells := by
  rw [List.filter_eq_self]
  intro x hx
  rw [hnull x hx]
  rfl

/-- C3 (amended): a column with positive length and zero non-null values
is analyzed without error; its numeric summary fields are all undefined,
but its quality score is 30 (100 minus the 50-point null penalty and the
20-point duplicate penalty), not the 0 the spec asserts. -/
theorem all_null_column_profile (dateOk : Cell → Bool) (c : Column)
    (a : ColumnAnalysis) (hlen : 0 < c.cells.length)
    (hnull : ∀ x ∈ c.cells, x = Cell.null)
    (ha : analyze_column dateOk c = some a) :
    a.min = none ∧ a.max = none ∧ a.mean = none ∧ a.median = none
    ∧ a.std = none ∧ a.quality_score = 30 := by
  have hEq := analyze_column_eq_analysisOf dateOk c a ha
  subst hEq
  have hvals : numericVals c = [] := numericVals_eq_nil c hnull
  have hnn : nonNullCells c = [] := nonNullCells_eq_nil c hnull
  have hout : detect_outliers c = [] := detect_outliers_of_no_vals c hvals
  have hfil : c.cells.filter isNull = c.cells := filter_isNull_eq_self c hnull
  have hlen0 : c.cells.length ≠ 0 := Nat.pos_iff_ne_zero.mp hlen
  have hlenQ : ((c.cells.length : ℚ)) ≠ 0 := by exact_mod_cast hlen0
  have hnp : (analyzeCore dateOk c).null_pct = some 100 := by
    have h1 : ((c.cells.length : ℚ)) / ((c.cells.length : ℚ)) * 100 = 100 := by
      field_simp
    have h2 : pyRound (100 : ℚ) 2 = 100 := by with_unfolding_all rfl
    simp only [analyzeCore, hfil, if_neg hlen0]
    rw [h1, h2]
  have hquant : quantile ([] : List ℚ) (1/2) = none := rfl
  refine ⟨?_, ?_, ?_, ?_, ?_, ?_⟩
  · show (analyzeCore dateOk c).min = none
    simp [analyzeCore, hvals]
  · show (analyzeCore dateOk c).max = none
    simp [analyzeCore, hvals]
  · show (analyzeCore dateOk c).mean = none
    simp [analyzeCore, hvals]
  · show (analyzeCore dateOk c).median = none
    simp only [analyzeCore, hvals]
    split_ifs
    · rw [hquant]
      rfl
    · rfl
  · show (analyzeCore dateOk c).std = none
    simp [analyzeCore, hvals]
  · show scoreOf (analyzeCore dateOk c) = 30
    have hdup : (analyzeCore dateOk c).duplicate_count = (c.cells.length : ℤ) := by
      simp [analyzeCore, hnn]
    have htot : (analyzeCore dateOk c).total = c.cells.length := rfl
    have hdupCond : ((analyzeCore dateOk c).total : ℚ) * (1/2)
        < ((analyzeCore dateOk c).duplicate_count : ℚ) := by
      rw [hdup, htot]
      push_cast
      have : (0 : ℚ) < (c.cells.length : ℚ) := by
        exact_mod_cast hlen
      linarith
    have houtPct : ¬ ((analyzeCore dateOk c).is_numeric = true
        ∧ (10 : ℚ) < (analyzeCore dateOk c).outliers_pct.getD 0) := by
      have hz : pyRound ((0 : ℚ) / (c.cells.length : ℚ) * 100) 2 = 0 := by
        rw [zero_div, zero_mul]
        with_unfolding_all rfl
      rintro ⟨hn, hlt⟩
      have : (analyzeCore dateOk c).outliers_pct.getD 0 = 0 := by
        simp only [analyzeCore] at hn ⊢
        rw [if_pos hn, hout]
        simpa using hz
      rw [this] at hlt
      norm_num at hlt
    have hraw : rawScore (analyzeCore dateOk c) = some 30 := by
      unfold rawScore
      rw [hnp]
      simp only [Option.map_some']
      rw [if_pos hdupCond]
      rw [if_neg (by
        intro hb
        rcases Bool.and_eq_true_iff.mp hb with ⟨h1, h2⟩
        exact houtPct ⟨h1, of_decide_eq_true h2⟩)]
      norm_num
    unfold scoreOf
    rw [hraw]
    have h30 : pyRound (30 : ℚ) 1 = 30 := by with_unfolding_all rfl
    show max 0 (pyRound 30 1) = 30
    rw [h30]
    exact max_eq_right (by norm_num)

/-- C3 (counterexample): the all-null numeric column of length 2 is
profiled with quality score 30, not the 0 the claim asserts. -/
theorem all_null_score_not_zero :
    (∀ x ∈ colAllNull.cells, x = Cell.null)
    ∧ (analyze_column noDate colAllNull).map (fun a => a.quality_score) = some 30
    ∧ (analyze_column noDate colAllNull).map (fun a => a.quality_score) ≠ some 0 := by
  with_unfolding_all decide

/-- C3 witness: the amended theorem applied to the concrete all-null
column. -/
theorem all_null_column_profile_witness :
    0 < colAllNull.cells.length
    ∧ (∀ x ∈ colAllNull.cells, x = Cell.null)
    ∧ ((analysisOf noDate colAllNull).min = none
       ∧ (analysisOf noDate colAllNull).max = none
       ∧ (analysisOf noDate colAllNull).mean = none
       ∧ (analysisOf noDate colAllNull).median = none
       ∧ (analysisOf noDate colAllNull).std = none
       ∧ (analysisOf noDate colAllNull).quality_score = 30) :=
  ⟨by decide, by decide,
   all_null_column_profile noDate colAllNull _ (by decide) (by decide)
     (by with_unfolding_all rfl)⟩

/-! ## C5: degenerate inputs to the outlier detector -/

theorem mem_insertSorted (a x : ℚ) :
    ∀ l : List ℚ, x ∈ insertSorted a l → x = a ∨ x ∈ l
  | [] => by simp [insertSorted]
  | y :: ys => by
    unfold insertSorted
    split_ifs with hle
    · intro hx
      simpa using hx
    · intro hx
      rcases List.mem_cons.mp hx with h1 | h1
      · right
        exact h1 ▸ List.mem_cons_self y ys
      · rcases mem_insertSorted a x ys h1 with h2 | h2
        · left; exact h2
        · right; exact List.mem_cons_of_mem y h2

theorem mem_sortQ (x : ℚ) : ∀ xs : List ℚ, x ∈ sortQ xs → x ∈ xs
  | [] => by simp [sortQ]
  | y :: ys => by
    intro hx
    rcases mem_insertSorted y x (sortQ ys) hx with h1 | h1
    · exact h1 ▸ List.mem_cons_self y ys
    · exact List.mem_cons_of_mem y (mem_sortQ x ys h1)

theorem insertSorted_ne_nil (a : ℚ) : ∀ l : List ℚ, insertSorted a l ≠ []
  | [] => by simp [insertSorted]
  | y :: ys => by
    unfold insertSorted
    split_ifs <;> simp

theorem sortQ_ne_nil (xs : List ℚ) (h : xs ≠ []) : sortQ xs ≠ [] := by
  cases xs with
  | nil => exact absurd rfl h
  | cons y ys => exact insertSorted_ne_nil y (sortQ ys)

theorem getD_all (v d : ℚ) :
    ∀ (l : List ℚ) (n : ℕ), (∀ x ∈ l, x = v) → d = v → l.getD n d = v
  | [], n, _, hd => by simp [List.getD_nil, hd]
  | y :: ys, 0, hl, _ => by
    rw [List.getD_cons_zero]
    exact hl y (List.mem_cons_self y ys)
  | y :: ys, n + 1, hl, hd => by
    rw [List.getD_cons_succ]
    exact getD_all v d ys n (fun x hx => hl x (List.mem_cons_of_mem y hx)) hd

theorem interpAt_const (s : List ℚ) (d v hpos : ℚ)
    (hall : ∀ x ∈ s, x = v) (hd : d = v) : interpAt s d hpos = v := by
  unfold interpAt
  have h1 : s.getD (⌊hpos⌋).toNat d = v := getD_all v d s _ hall hd
  have h2 : s.getD ((⌊hpos⌋).toNat + 1) (s.getD (⌊hpos⌋).toNat d) = v :=
    getD_all v _ s _ hall h1
  rw [h2, h1]
  ring

theorem quantile_const (xs : List ℚ) (v : ℚ) (hne : xs ≠ [])
    (h : ∀ x ∈ xs, x = v) (p : ℚ) : quantile xs p = some v := by
  have hs : ∀ x ∈ sortQ xs, x = v := fun x hx => h x (mem_sortQ x xs hx)
  cases hsq : sortQ xs with
  | nil => exact absurd hsq (sortQ_ne_nil xs hne)
  | cons y ys =>
    unfold quantile
    rw [hsq]
    have hall : ∀ x ∈ (y :: ys), x = v := by
      intro x hx
      exact hs x (hsq ▸ hx)
    have hy : y = v := hall y (List.mem_cons_self y ys)
    show some (interpAt (y :: ys) y (p * (((y :: ys).length : ℚ) - 1))) = some v
    rw [interpAt_const (y :: ys) y v _ hall hy]

theorem getD_mem_of_lt (l : List Cell) (d : Cell) (i : ℕ) (h : i < l.length) :
    l.getD i d ∈ l := by
  rw [List.getD_eq_getElem l d h]
  exact List.getElem_mem h

/-- C5 (amended): the outlier detector is total and, on a column all of
whose cells are null or carry one fixed value `v` (so IQR = 0 with the
bounds collapsing onto `v`), returns the empty outlier set.  (Merely
having fewer than 4 distinct values, or IQR = 0, does not force an empty
set — see the counterexample.) -/
theorem detect_outliers_const (c : Column) (v : ℚ)
    (h : ∀ x ∈ c.cells, x = Cell.null ∨ x = Cell.num v) :
    detect_outliers c = [] := by
  unfold detect_outliers
  split_ifs with hn
  · have hv : ∀ x ∈ numericVals c, x = v := by
      intro x hx
      unfold numericVals at hx
      rw [List.mem_filterMap] at hx
      obtain ⟨cell, hcell, hfx⟩ := hx
      rcases h cell hcell with h1 | h1 <;> subst h1
      · exact absurd hfx (by simp)
      · simpa using hfx.symm
    by_cases hv0 : numericVals c = []
    · rw [hv0]
      rfl
    · rw [quantile_const _ v hv0 hv (1/4), quantile_const _ v hv0 hv (3/4)]
      show outlierIndices c (v - (3/2) * (v - v)) (v + (3/2) * (v - v)) = []
      have hb1 : v - (3/2) * (v - v) = v := by ring
      have hb2 : v + (3/2) * (v - v) = v := by ring
      rw [hb1, hb2]
      unfold outlierIndices
      rw [List.filter_eq_nil_iff]
      intro i hi
      rw [List.mem_range] at hi
      have hmem := getD_mem_of_lt c.cells Cell.null i hi
      cases hcell : c.cells.getD i Cell.null with
      | null => simp
      | num q =>
        rw [hcell] at hmem
        rcases h _ hmem with h1 | h1
        · exact absurd h1 (by simp)
        · have hq : q = v := by
            injection h1
          subst hq
          simp
      | str s =>
        rw [hcell] at hmem
        rcases h _ hmem with h1 | h1 <;> exact absurd h1 (by simp)
  · rfl

/-- C5 (counterexample): `[1,1,1,100]` has only 2 distinct values (fewer
than 4) yet the detector flags position 3 — the degenerate-case guard the
claim describes does not exist in the code. -/
theorem few_distinct_outliers_nonempty :
    detect_outliers colFewDistinct = [3]
    ∧ (numericVals colFewDistinct).dedup.length = 2
    ∧ detect_outliers colFewDistinct ≠ [] := by
  with_unfolding_all decide

/-- All-constant numeric column for the C5 witness. -/
def colConst : Column :=
  { name := "v", dtypeName := "int64", is_numeric_dtype := true,
    is_object_dtype := false,
    cells := [Cell.num 5, Cell.num 5, Cell.null, Cell.num 5] }

/-- C5 witness: the amended theorem applied to an all-identical column. -/
theorem detect_outliers_const_witness :
    (∀ x ∈ colConst.cells, x = Cell.null ∨ x = Cell.num 5)
    ∧ detect_outliers colConst = [] :=
  ⟨by with_unfolding_all decide,
   detect_outliers_const colConst 5 (by with_unfolding_all decide)⟩

/-! ## C6: duplicate counting and null slots -/

/-- C6 (amended): `duplicate_count = total − unique_count` with
`unique_count` the number of distinct non-null values; consequently each
null slot adds one to `duplicate_count` on top of the duplicates among
the non-null values — nulls are counted toward duplicates, not excluded
from them. -/
theorem duplicate_count_formula (dateOk : Cell → Bool) (c : Column)
    (a : ColumnAnalysis) (ha : analyze_column dateOk c = some a) :
    a.duplicate_count = (a.total : ℤ) - (a.unique_count : ℤ)
    ∧ a.unique_count = (nonNullCells c).dedup.length
    ∧ a.duplicate_count
        = (((nonNullCells c).length : ℤ) - (a.unique_count : ℤ))
          + (a.null_count : ℤ) := by
  have hEq := analyze_column_eq_analysisOf dateOk c a ha
  subst hEq
  have htot : (analysisOf dateOk c).total = c.cells.length := rfl
  have hnullc : (analysisOf dateOk c).null_count = (c.cells.filter isNull).length := rfl
  have huniq : (analysisOf dateOk c).unique_count = (nonNullCells c).dedup.length := rfl
  have hdup : (analysisOf dateOk c).duplicate_count
      = (c.cells.length : ℤ) - ((nonNullCells c).dedup.length : ℤ) := rfl
  have hsplit : c.cells.length
      = (c.cells.filter isNull).length + (c.cells.filter (! isNull ·)).length :=
    List.length_eq_length_filter_add isNull
  have hnn : (nonNullCells c).length = (c.cells.filter (! isNull ·)).length := rfl
  refine ⟨?_, huniq, ?_⟩
  · rw [hdup, htot, huniq]
  · rw [hdup, hnullc, huniq, hnn]
    omega

/-- Column with one value and one null, for the C6 counterexample. -/
def colOneNull : Column :=
  { name := "v", dtypeName := "float64", is_numeric_dtype := true,
    is_object_dtype := false, cells := [Cell.num 1, Cell.null] }

/-- C6 (counterexample): in `[1, null]` there is no duplicate among the
non-null values (`non-null count − unique_count = 0`), yet
`duplicate_count = 1`: the null slot is counted as a duplicate, refuting
the claim that null slots are never counted. -/
theorem null_counted_as_duplicate :
    (analyze_column noDate colOneNull).map (fun a => a.duplicate_count) = some 1
    ∧ ((nonNullCells colOneNull).length : ℤ)
        - ((nonNullCells colOneNull).dedup.length : ℤ) = 0
    ∧ (analyze_column noDate colOneNull).map (fun a => a.duplicate_count)
        ≠ some (((nonNullCells colOneNull).length : ℤ)
                 - ((nonNullCells colOneNull).dedup.length : ℤ)) := by
  with_unfolding_all decide

/-- Column for the C6 witness: a real duplicate plus a null. -/
def colDupNull : Column :=
  { name := "v", dtypeName := "float64", is_numeric_dtype := true,
    is_object_dtype := false,
    cells := [Cell.num 1, Cell.num 1, Cell.null] }

/-- C6 witness: the amended formula applied to `[1, 1, null]`. -/
theorem duplicate_count_formula_witness :
    analyze_column noDate colDupNull = some (analysisOf noDate colDupNull)
    ∧ ((analysisOf noDate colDupNull).duplicate_count
         = ((analysisOf noDate colDupNull).total : ℤ)
           - ((analysisOf noDate colDupNull).unique_count : ℤ)
       ∧ (analysisOf noDate colDupNull).unique_count
           = (nonNullCells colDupNull).dedup.length
       ∧ (analysisOf noDate colDupNull).duplicate_count
           = (((nonNullCells colDupNull).length : ℤ)
              - ((analysisOf noDate colDupNull).unique_count : ℤ))
             + ((analysisOf noDate colDupNull).null_count : ℤ)) :=
  ⟨by with_unfolding_all rfl,
   duplicate_count_formula noDate colDupNull _ (by with_unfolding_all rfl)⟩

/-! ## C7: the email-sniffing threshold -/

/-- C7 (amended): the `likely_email` tag is set iff the column has object
dtype and STRICTLY more than 50% of the bounded non-null sample matches
the email pattern (`email_count > len(sample) * 0.5`); at exactly 50% the
tag is not set. -/
theorem likely_email_iff (dateOk : Cell → Bool) (c : Column)
    (a : ColumnAnalysis) (ha : analyze_column dateOk c = some a) :
    a.likely_email = true
    ↔ (c.is_object_dtype = true
       ∧ (((sampleOf c).length : ℚ) * (1/2)) < (emailCount c : ℚ)) := by
  have hEq := analyze_column_eq_analysisOf dateOk c a ha
  subst hEq
  have hfield : (analysisOf dateOk c).likely_email
      = (c.is_object_dtype
         && decide ((((sampleOf c).length : ℚ) * (1/2)) < (emailCount c : ℚ))) := rfl
  rw [hfield, Bool.and_eq_true, decide_eq_true_eq]

/-- Textual column whose sample matches the email pattern exactly 50%. -/
def colHalfEmail : Column :=
  { name := "e", dtypeName := "object", is_numeric_dtype := false,
    is_object_dtype := true,
    cells := [Cell.str ("a@b.com"), Cell.str ("bad")] }

/-- C7 (counterexample): with 1 match in a sample of 2 (exactly 50%, so
at least 50%), the tag is NOT set: the source threshold is strict. -/
theorem half_sample_no_email_tag :
    2 * emailCount colHalfEmail = (sampleOf colHalfEmail).length
    ∧ 0 < (sampleOf colHalfEmail).length
    ∧ (analyze_column noDate colHalfEmail).map (fun a => a.likely_email)
        = some false := by
  with_unfolding_all decide

/-- The 2-of-3 email sample from the spec. -/
def colEmails : Column :=
  { name := "e", dtypeName := "object", is_numeric_dtype := false,
    is_object_dtype := true,
    cells := [Cell.str ("a@b.com"), Cell.str ("bad"), Cell.str ("c@d.org")] }

/-- A 1-of-3 sample does not set the tag (66% vs 33%, per the spec). -/
example :
    (analyze_column noDate
        { name := "e", dtypeName := "object", is_numeric_dtype := false,
          is_object_dtype := true,
          cells := [Cell.str ("a@b.com"), Cell.str ("bad"), Cell.str ("nope")] }).map
      (fun a => a.likely_email) = some false := by
  with_unfolding_all rfl

/-- C7 witness: the threshold theorem applied to the 2-of-3 sample. -/
theorem likely_email_iff_witness :
    analyze_column noDate colEmails = some (analysisOf noDate colEmails)
    ∧ (analysisOf noDate colEmails).likely_email = true
    ∧ emailCount colEmails = 2
    ∧ (sampleOf colEmails).length = 3 :=
  ⟨by with_unfolding_all rfl,
   (likely_email_iff noDate colEmails _ (by with_unfolding_all rfl)).mpr
     (by with_unfolding_all decide),
   by with_unfolding_all rfl, by with_unfolding_all rfl⟩

/-! ## C10: no tags on an all-null textual column -/

/-- C10: a textual (object-dtype) column whose cells are all null has an
empty sniffing sample, and neither `likely_email` nor `likely_date` is
set, whatever the date oracle does. -/
theorem all_null_no_tags (dateOk : Cell → Bool) (c : Column)
    (a : ColumnAnalysis) (_hobj : c.is_object_dtype = true)
    (hnull : ∀ x ∈ c.cells, x = Cell.null)
    (ha : analyze_column dateOk c = some a) :
    a.likely_email = false ∧ a.likely_date = false := by
  have hEq := analyze_column_eq_analysisOf dateOk c a ha
  subst hEq
  have hnn : nonNullCells c = [] := nonNullCells_eq_nil c hnull
  have hsamp : sampleOf c = [] := by
    unfold sampleOf
    rw [hnn]
    rfl
  have hec : emailCount c = 0 := by
    unfold emailCount
    rw [hsamp]
    rfl
  have hdc : dateCount dateOk c = 0 := by
    unfold dateCount
    rw [hsamp]
    rfl
  constructor
  · have hfield : (analysisOf dateOk c).likely_email
        = (c.is_object_dtype
           && decide ((((sampleOf c).length : ℚ) * (1/2)) < (emailCount c : ℚ))) := rfl
    rw [hfield, hsamp, hec]
    simp
  · have hfield : (analysisOf dateOk c).likely_date
        = (c.is_object_dtype
           && decide ((((sampleOf c).length : ℚ) * (1/2)) < (dateCount dateOk c : ℚ))) := rfl
    rw [hfield, hsamp, hdc]
    simp

/-- All-null textual column for the C10 witness. -/
def colAllNullObj : Column :=
  { name := "t", dtypeName := "object", is_numeric_dtype := false,
    is_object_dtype := true, cells := [Cell.null, Cell.null, Cell.null] }

/-- C10 witness: the theorem applied to a concrete all-null text column
with an arbitrary nontrivial date oracle. -/
theorem all_null_no_tags_witness :
    colAllNullObj.is_object_dtype = true
    ∧ (∀ x ∈ colAllNullObj.cells, x = Cell.null)
    ∧ ((analysisOf (fun _ => true) colAllNullObj).likely_email = false
       ∧ (analysisOf (fun _ => true) colAllNullObj).likely_date = false) :=
  ⟨rfl, by decide,
   all_null_no_tags (fun _ => true) colAllNullObj _ rfl (by decide)
     (by with_unfolding_all rfl)⟩

/-! ## C8: the high-null-percentage issue rule -/

theorem nullCond_eq_decide (a : ColumnAnalysis) :
    nullCond a = decide ((20 : ℚ) < a.null_pct.getD 0) := by
  unfold nullCond
  cases a.null_pct with
  | none =>
    have h : ¬ ((20 : ℚ) < (Option.none).getD 0) := by
      rw [Option.getD_none]
      norm_num
    rw [decide_eq_false h]
  | some p => rw [Option.getD_some]

theorem filter_issuesFor_high_null (a : ColumnAnalysis) :
    (issuesFor a).filter (fun i => i.kind == IssueKind.high_null_percentage)
      = (if nullCond a then [ nullIssue a] else []) := by
  unfold issuesFor
  rw [List.filter_append, List.filter_append]
  have e1 : (if nullCond a then [ nullIssue a] else []).filter
      (fun i => i.kind == IssueKind.high_null_percentage)
      = (if nullCond a then [ nullIssue a] else []) := by
    split_ifs <;> rfl
  have e2 : (if dupCond a then [ dupIssue a] else []).filter
      (fun i => i.kind == IssueKind.high_null_percentage) = [] := by
    split_ifs <;> rfl
  have e3 : (if outCond a then [ outIssue a] else []).filter
      (fun i => i.kind == IssueKind.high_null_percentage) = [] := by
    split_ifs <;> rfl
  rw [e1, e2, e3, List.append_nil, List.append_nil]

/-- C8: for every analyzed column, the issue loop of the report emits
exactly one `high_null_percentage` issue when the (rounded) null
percentage is strictly greater than 20 and none otherwise, and any such
issue carries severity `warning`.  (A `NaN` null percentage reads as 0
here, i.e. no issue.) -/
theorem high_null_issue_iff (dateOk : Cell → Bool) (c : Column)
    (a : ColumnAnalysis) (_ha : analyze_column dateOk c = some a) :
    ((issuesFor a).filter (fun i => i.kind == IssueKind.high_null_percentage)).length
      = (if (20 : ℚ) < a.null_pct.getD 0 then 1 else 0)
    ∧ ∀ i ∈ issuesFor a, i.kind = IssueKind.high_null_percentage →
        i.severity = Severity.warning := by
  constructor
  · rw [filter_issuesFor_high_null]
    cases hb : nullCond a with
    | false =>
      have hnp := of_decide_eq_false ((nullCond_eq_decide a).symm.trans hb)
      rw [if_neg hnp]
      simp
    | true =>
      have hnp := of_decide_eq_true ((nullCond_eq_decide a).symm.trans hb)
      rw [if_pos hnp]
      simp
  · intro i hi hk
    unfold issuesFor at hi
    simp only [List.mem_append] at hi
    rcases hi with (h1 | h2) | h3
    · revert h1
      split_ifs with hb
      · intro h1
        rw [List.mem_singleton] at h1
        subst h1
        rfl
      · intro h1
        exact absurd h1 (List.not_mem_nil i)
    · revert h2
      split_ifs with hb
      · intro h2
        rw [List.mem_singleton] at h2
        subst h2
        rfl
      · intro h2
        exact absurd h2 (List.not_mem_nil i)
    · revert h3
      split_ifs with hb
      · intro h3
        rw [List.mem_singleton] at h3
        subst h3
        exact absurd hk (by simp [outIssue])
      · intro h3
        exact absurd h3 (List.not_mem_nil i)

/-- 100-row textual column with 25 nulls (25% > 20%). -/
def colNull25 : Column :=
  { name := "n25", dtypeName := "object", is_numeric_dtype := false,
    is_object_dtype := true,
    cells := List.replicate 25 Cell.null ++ List.replicate 75 (Cell.str ("x")) }

/-- 100-row textual column with exactly 20 nulls (boundary case). -/
def colNull20 : Column :=
  { name := "n20", dtypeName := "object", is_numeric_dtype := false,
    is_object_dtype := true,
    cells := List.replicate 20 Cell.null ++ List.replicate 80 (Cell.str ("x")) }

/-- C8 witness: exactly one issue at 25% nulls out of 100 rows, none at
exactly 20% (strict boundary), by the theorem at those columns. -/
theorem high_null_issue_iff_witness :
    ((issuesFor (analysisOf noDate colNull25)).filter
        (fun i => i.kind == IssueKind.high_null_percentage)).length = 1
    ∧ ((issuesFor (analysisOf noDate colNull20)).filter
        (fun i => i.kind == IssueKind.high_null_percentage)).length = 0 := by
  constructor
  · rw [(high_null_issue_iff noDate colNull25 (analysisOf noDate colNull25)
      (by with_unfolding_all rfl)).1]
    with_unfolding_all decide
  · rw [(high_null_issue_iff noDate colNull20 (analysisOf noDate colNull20)
      (by with_unfolding_all rfl)).1]
    with_unfolding_all decide
